import Mathlib

/-!
Shallow embedding of `src/application/lib/registration.go` (package `lib`)
of the conjure registration core, together with proofs settling the
frozen claims about it.

Modelling conventions:
* `time.Time` values are modelled as `Int` (seconds); `cutoff.After(t)`
  is `t < cutoff`; `time.Minute` is `60`.
* Go pointers that may be nil are modelled as `Option`; the nil `*net.IP`
  receiver never occurs in the claims, so `DarkDecoy` is modelled by its
  rendered string form (`net.IP.String()` is stdlib, outside the repo).
* Byte slices are `List Nat` (each element a byte value); `uint8` is
  `Fin 256`.
* The Go map `decoys` is modelled as a function `String → Option DecoyRegistration`
  (Go map lookup of an absent key yields the zero value nil, i.e. `none`).
* The recursion in `String()` on a nil receiver is modelled with explicit
  fuel: `StringFuel fuel reg` returns `none` when the computation does not
  terminate within `fuel` unfoldings (or when Go would panic on a nil
  `keys` dereference).
* The liveness prober's concurrency is modelled by the FIFO contents of
  the buffered result channel at the moment the statistical timeout
  elapses: `phantomIsLive` is the decision the Go `select` makes on that
  snapshot (it inspects at most the head, i.e. performs one non-blocking
  receive).
-/

namespace Conjure

/-- Lowercase hex digit for a nibble, as produced by Go's `encoding/hex`. -/
def hexDigit (n : Nat) : Char :=
  if n < 10 then Char.ofNat (48 + n) else Char.ofNat (87 + n)

/-- `encoding/hex` encodes one byte as high nibble then low nibble. -/
def hexEncodeByte (b : Nat) : List Char :=
  [hexDigit (b / 16 % 16), hexDigit (b % 16)]

/-- `hex.Encode` over a byte slice: two lowercase hex chars per byte. -/
def hexEncode (bs : List Nat) : List Char :=
  (bs.map hexEncodeByte).flatten

/-- The 16 characters `encoding/hex` can emit. -/
def hexChars : List Char := "0123456789abcdef".data

/-- Go's `%02x` applied to a `uint8`: always exactly two lowercase hex digits. -/
def byteToHex2 (f : Fin 256) : String :=
  String.mk [hexDigit (f.val / 16), hexDigit (f.val % 16)]

/-- `ConjureSharedKeys` — only the `SharedSecret` byte slice is used by this file's code. -/
structure ConjureSharedKeys where
  SharedSecret : List Nat
deriving DecidableEq

/-- `DecoyRegistration` from registration.go. `keys` is a possibly-nil pointer. -/
structure DecoyRegistration where
  DarkDecoy : String
  keys : Option ConjureSharedKeys
  Covert : String
  Mask : String
  Flags : Fin 256
deriving DecidableEq

/-- The digest built by the `fmt.Sprintf` in `DecoyRegistration.String` for a
non-nil receiver whose `keys` pointer is non-nil. -/
def digest (r : DecoyRegistration) (k : ConjureSharedKeys) : String :=
  "\x7bphantom=" ++ r.DarkDecoy ++ ", covert=" ++ r.Covert ++ ", mask=" ++ r.Mask
    ++ ", flags=0x" ++ byteToHex2 r.Flags ++ ", Shared Secret:"
    ++ String.mk (hexEncode k.SharedSecret) ++ "\x7d"

/-- `DecoyRegistration.String` with explicit fuel. The Go code is

```go
if reg == nil { return fmt.Sprintf("%v", reg.String()) }
```

so the nil case re-enters `String` on the same nil receiver (the `%v` of the
returned string is that string itself); the non-nil case dereferences
`reg.keys.SharedSecret`, which panics when `keys` is nil (modelled `none`),
and otherwise produces the digest. `none` as a result means the call does
not return a string within `fuel` unfoldings (divergence or panic). -/
def StringFuel : Nat → Option DecoyRegistration → Option String
  | 0, _ => none
  | fuel + 1, none => StringFuel fuel none
  | _ + 1, some r =>
    match r.keys with
    | none => none
    | some k => some (digest r k)

/-- `DecoyRegistration.IDString`: "000000" when the receiver or its `keys`
pointer is nil or when the hex encoding is shorter than 6 characters;
otherwise the first 6 hex characters of the encoded shared secret. -/
def IDString (reg : Option DecoyRegistration) : String :=
  match reg with
  | none => "000000"
  | some r =>
    match r.keys with
    | none => "000000"
    | some k =>
      let secret := hexEncode k.SharedSecret
      if secret.length < 6 then "000000"
      else String.mk (secret.take 6)

/-- One entry of the `decoysTimeouts` expiry queue. -/
structure TimeoutEntry where
  decoy : String
  registrationTime : Int
deriving DecidableEq

/-- `RegisteredDecoys`: the address map plus the expiry queue. The
`sync.RWMutex` serialises operations; each operation is therefore modelled
as an atomic state transformer. -/
structure RegisteredDecoys where
  decoys : String → Option DecoyRegistration
  decoysTimeouts : List TimeoutEntry

/-- `NewRegisteredDecoys`: empty map, nil queue. -/
def NewRegisteredDecoys : RegisteredDecoys :=
  { decoys := fun _ => none, decoysTimeouts := [] }

/-- `register(darkDecoyAddr, d)` at wall-clock time `now`: when `d` is nil the
body's `if d != nil` guard makes the call a no-op; otherwise it overwrites
the map entry and appends `(addr, now)` to the queue. -/
def register (r : RegisteredDecoys) (darkDecoyAddr : String)
    (d : Option DecoyRegistration) (now : Int) : RegisteredDecoys :=
  match d with
  | none => r
  | some reg =>
    { decoys := fun a => if a = darkDecoyAddr then some reg else r.decoys a,
      decoysTimeouts := r.decoysTimeouts ++ [⟨darkDecoyAddr, now⟩] }

/-- `checkRegistration`: pure map lookup (Go returns the zero value nil for an
absent key, the explicit not-found signal). -/
def checkRegistration (r : RegisteredDecoys) (darkDecoyAddr : String) :
    Option DecoyRegistration :=
  r.decoys darkDecoyAddr

/-- `time.Minute` in our time unit (seconds). -/
def minuteSeconds : Int := 60

/-- The retention constant: `const timeout = -time.Minute * 5` gives a cutoff
of `now - 5 minutes`. -/
def retentionWindow : Int := 5 * minuteSeconds

/-- The scan loop of `removeOldRegistrations`:

```go
for idx < len(r.decoysTimeouts) {
    if cutoff.After(r.decoysTimeouts[idx].registrationTime) { break }
    delete(r.decoys, r.decoysTimeouts[idx].decoy)
    idx += 1
}
```

`cutoff.After(t)` is `t < cutoff`; the loop breaks on it and otherwise
deletes the head's address and advances. Returns the final map and the
unconsumed suffix `r.decoysTimeouts[idx:]`. -/
def sweep (cutoff : Int) (q : List TimeoutEntry)
    (m : String → Option DecoyRegistration) :
    (String → Option DecoyRegistration) × List TimeoutEntry :=
  match q with
  | [] => (m, [])
  | e :: rest =>
    if e.registrationTime < cutoff then (m, e :: rest)
    else sweep cutoff rest (fun a => if a = e.decoy then none else m a)

/-- `removeOldRegistrations` invoked at wall-clock time `now`:
`cutoff := time.Now().Add(-5 * time.Minute)` computed once, then the scan
loop, then queue truncation to the unconsumed suffix. -/
def removeOldRegistrations (r : RegisteredDecoys) (now : Int) : RegisteredDecoys :=
  let cutoff := now - retentionWindow
  let res := sweep cutoff r.decoysTimeouts r.decoys
  { decoys := res.1, decoysTimeouts := res.2 }

/-- The prober's attempt width: `width := 8`. -/
def width : Nat := 8

/-- The statistical timeout: `750 * time.Millisecond`. -/
def probeTimeoutMs : Nat := 750

/-- Errors `phantomIsLive` can return: a dial error forwarded from an
attempt, or the `fmt.Errorf("Reached statistical timeout ...")` value. -/
inductive ProbeErr where
  | dial (msg : String)
  | timeoutReached (ms : Nat)
deriving DecidableEq

/-- The result channel is `make(chan error, width)`. -/
def channelCapacity : Nat := width

/-- One probe attempt (`testConnect`): on dial failure it sends the error and
returns; on success it closes the connection and sends nil. Either way it
deposits exactly one item on the result channel. The argument is the dial
outcome (`some msg` for an error, `none` for a successful connect). -/
def testConnect (dialResult : Option String) : List (Option String) :=
  match dialResult with
  | some err => [some err]
  | none => [none]

/-- All deposits made into the result channel by a list of completed attempt
outcomes, in completion order. -/
def allDeposits (outcomes : List (Option String)) : List (Option String) :=
  (outcomes.map testConnect).flatten

/-- The decision `phantomIsLive` takes once `time.Sleep(timeout)` returns,
as a function of the FIFO contents of the result channel at that moment:
a single non-blocking `select` — if the channel is empty, `(false, timeout)`;
otherwise it receives exactly the first deposited item and returns
`(false, err)` for a dial error and `(true, nil)` for a nil error. -/
def phantomIsLive (chanAtDeadline : List (Option String)) : Bool × Option ProbeErr :=
  match chanAtDeadline with
  | [] => (false, some (ProbeErr.timeoutReached probeTimeoutMs))
  | some err :: _ => (false, some (ProbeErr.dial err))
  | none :: _ => (true, none)

/-- The external address-selection component (constructed elsewhere in the
repository); `NewRegistrationManager` only needs whether its construction
succeeded, so the component itself is opaque here. -/
structure DDIpSelector where
  id : Nat
deriving DecidableEq

/-- Outcome of the `NewDDIpSelector()` call made by `NewRegistrationManager`. -/
inductive SelectorInit where
  | ok (d : DDIpSelector)
  | fail (err : String)

/-- `RegistrationManager` (the `Logger` field is construction-only plumbing
and carries no state the claims mention). -/
structure RegistrationManager where
  registeredDecoys : RegisteredDecoys
  DDSelector : DDIpSelector

/-- `NewRegistrationManager`, parametrised by the `NewDDIpSelector()` outcome.
The Go function's signature returns only `*RegistrationManager`; the second
component of our result records any diagnostic surfaced to the caller or the
process (returned error, log write, or panic). In the failure branch the Go
code evaluates `fmt.Errorf("Failed to create the DDIpSelector Object: %v\n", err)`
— which only constructs an error value — discards that value, and returns
nil, so the second component is `none` on every path. -/
def NewRegistrationManager (sel : SelectorInit) :
    Option RegistrationManager × Option String :=
  match sel with
  | .fail err =>
    let _discarded := "Failed to create the DDIpSelector Object: " ++ err ++ "\n"
    (none, none)
  | .ok d => (some { registeredDecoys := NewRegisteredDecoys, DDSelector := d }, none)

/-- A register call in a history: address, entity argument, wall-clock time. -/
structure RegOp where
  addr : String
  entity : Option DecoyRegistration
  time : Int

/-- Replay a history of `register` calls against a table state. -/
def applyOps (r : RegisteredDecoys) (ops : List RegOp) : RegisteredDecoys :=
  ops.foldl (fun st o => register st o.addr o.entity o.time) r

/-- The entity of the most recent `register(addr, ·)` call in the history
whose entity argument was non-nil (`none` when there is no such call). -/
def mostRecentNonNil (ops : List RegOp) (addr : String) :
    Option DecoyRegistration :=
  ops.foldl (fun acc o => if o.addr = addr ∧ o.entity.isSome then o.entity else acc) none

/-- Non-decreasing registration times along the expiry queue. -/
def queueSorted (r : RegisteredDecoys) : Prop :=
  List.Chain' (fun a b => a.registrationTime ≤ b.registrationTime) r.decoysTimeouts

instance : DecidableRel (fun a b : TimeoutEntry => a.registrationTime ≤ b.registrationTime) :=
  fun _ _ => Int.decLe _ _

instance (r : RegisteredDecoys) : Decidable (queueSorted r) :=
  inferInstanceAs (Decidable (List.Chain' _ r.decoysTimeouts))

/-- Sample key material from the spec's scenario: secret `0xdeadbeef`. -/
def sampleKeys : ConjureSharedKeys := ⟨[0xde, 0xad, 0xbe, 0xef]⟩

/-- Sample entity from the spec's scenario. -/
def sampleReg : DecoyRegistration :=
  { DarkDecoy := "10.0.0.5", keys := some sampleKeys,
    Covert := "example.com", Mask := "decoy.test", Flags := 1 }

/-- A second entity whose shared secret has only 2 bytes (4 hex chars). -/
def shortKeys : ConjureSharedKeys := ⟨[0xde, 0xad]⟩

/-- Entity with too-short key material, for the degradation cases. -/
def shortReg : DecoyRegistration :=
  { DarkDecoy := "10.0.0.6", keys := some shortKeys,
    Covert := "c", Mask := "m", Flags := 0 }

lemma hexEncode_length (bs : List Nat) : (hexEncode bs).length = 2 * bs.length := by
  induction bs with
  | nil => rfl
  | cons b rest ih =>
    have h : hexEncode (b :: rest) = hexEncodeByte b ++ hexEncode rest := rfl
    rw [h, List.length_append, ih, hexEncodeByte]
    simp [Nat.mul_succ, Nat.add_comm]

lemma hexDigit_mem_hexChars (n : Nat) (h : n < 16) : hexDigit n ∈ hexChars := by
  have hall : ∀ m : Fin 16, hexDigit m.val ∈ hexChars := by decide
  exact hall ⟨n, h⟩

lemma checkRegistration_register (st : RegisteredDecoys) (a addr : String)
    (d : Option DecoyRegistration) (t : Int) :
    checkRegistration (register st a d t) addr =
      if a = addr ∧ d.isSome then d else checkRegistration st addr := by
  cases d with
  | none => simp [register]
  | some reg =>
    by_cases h : a = addr
    · subst h
      simp [register, checkRegistration]
    · simp [register, checkRegistration, h, Ne.symm h]

lemma applyOps_check (ops : List RegOp) (st : RegisteredDecoys) (addr : String) :
    checkRegistration (applyOps st ops) addr =
      ops.foldl (fun acc o => if o.addr = addr ∧ o.entity.isSome then o.entity else acc)
        (checkRegistration st addr) := by
  induction ops generalizing st with
  | nil => rfl
  | cons o rest ih =>
    show checkRegistration (applyOps (register st o.addr o.entity o.time) rest) addr = _
    rw [ih, List.foldl_cons, checkRegistration_register]

lemma sweep_suffix (cutoff : Int) (q : List TimeoutEntry)
    (m : String → Option DecoyRegistration) :
    (sweep cutoff q m).2 <:+ q := by
  induction q generalizing m with
  | nil => exact List.suffix_refl []
  | cons e rest ih =>
    by_cases h : e.registrationTime < cutoff
    · simp [sweep, h]
    · have hrec := ih (fun a => if a = e.decoy then none else m a)
      simp only [sweep, if_neg h]
      exact hrec.trans (List.suffix_cons e rest)

lemma register_queue_shape (r : RegisteredDecoys) (a : String)
    (d : Option DecoyRegistration) (now : Int) :
    (register r a d now).decoysTimeouts = r.decoysTimeouts
    ∨ (register r a d now).decoysTimeouts = r.decoysTimeouts ++ [⟨a, now⟩] := by
  cases d with
  | none => exact Or.inl rfl
  | some reg => exact Or.inr rfl

lemma register_sorted (r : RegisteredDecoys) (a : String) (d : Option DecoyRegistration)
    (now : Int) (hs : queueSorted r)
    (hle : ∀ e ∈ r.decoysTimeouts, e.registrationTime ≤ now) :
    queueSorted (register r a d now) := by
  cases d with
  | none => exact hs
  | some reg =>
    unfold queueSorted at hs ⊢
    show List.Chain' _ (r.decoysTimeouts ++ [⟨a, now⟩])
    rw [List.chain'_append]
    refine ⟨hs, List.chain'_singleton _, ?_⟩
    intro x hx y hy
    have hxm : x ∈ r.decoysTimeouts := by
      obtain ⟨hne, hx'⟩ := List.mem_getLast?_eq_getLast hx
      rw [hx']
      exact List.getLast_mem hne
    have hym : y = (⟨a, now⟩ : TimeoutEntry) := by
      simp at hy
      exact hy.symm
    subst hym
    exact hle x hxm

lemma removeOld_queue_suffix (r : RegisteredDecoys) (now : Int) :
    (removeOldRegistrations r now).decoysTimeouts <:+ r.decoysTimeouts :=
  sweep_suffix _ _ _

lemma allDeposits_length (outcomes : List (Option String)) :
    (allDeposits outcomes).length = outcomes.length := by
  induction outcomes with
  | nil => rfl
  | cons o rest ih =>
    have h : allDeposits (o :: rest) = testConnect o ++ allDeposits rest := rfl
    rw [h, List.length_append, ih]
    cases o <;> simp [testConnect] <;> omega

/-- C1: the claim says the sweep at `now` with retention 5 minutes removes
every entry registered at `ti ≤ now - R` and keeps every entry with
`ti > now - R`. The code does the opposite: `cutoff.After(t)` (without the
negation the function's purpose requires) makes the loop break at the first
OLD entry and delete YOUNG ones. Concretely, with `R = 300` and `now = 360`
(`cutoff = 60`): an entry registered at `t = 0 ≤ 60` survives the sweep,
and an entry registered at `t = 350 > 60` (10 seconds old) is deleted. -/
theorem removeOld_keeps_expired_deletes_fresh :
    checkRegistration (removeOldRegistrations
        (register NewRegisteredDecoys "10.0.0.5" (some sampleReg) 0) 360) "10.0.0.5"
      = some sampleReg
    ∧ (0 : Int) ≤ 360 - retentionWindow
    ∧ checkRegistration (removeOldRegistrations
        (register NewRegisteredDecoys "10.0.0.7" (some sampleReg) 350) 360) "10.0.0.7"
      = none
    ∧ 360 - retentionWindow < (350 : Int) := by
  refine ⟨?_, by decide, ?_, by decide⟩ <;> decide

/-- C2: `IDString` on a nil entity does return the sentinel "000000", but
`String()` on a nil receiver does NOT return a fixed sentinel: its nil
branch is `return fmt.Sprintf("%v", reg.String())`, which re-enters
`String` on the same nil receiver. No amount of fuel makes the call
return, i.e. the recursion is unbounded (a stack overflow in Go). -/
theorem string_nil_diverges :
    (∀ fuel, StringFuel fuel none = none) ∧ IDString none = "000000" := by
  refine ⟨?_, rfl⟩
  intro fuel
  induction fuel with
  | zero => rfl
  | succ n ih => simpa [StringFuel] using ih

/-- C3 counterexample: the claim, as stated, says `checkRegistration(addr)`
returns exactly the entity passed to the most recent `register(addr, ·)`
call. In the history below the most recent `register("10.0.0.5", ·)` call
passes a nil entity, yet the lookup returns the earlier entity
`sampleReg ≠ nil` (nil-entity registers are no-ops in the code). -/
theorem checkRegistration_nil_register_counterexample :
    checkRegistration (applyOps NewRegisteredDecoys
        [⟨"10.0.0.5", some sampleReg, 0⟩, ⟨"10.0.0.5", none, 1⟩]) "10.0.0.5"
      = some sampleReg
    ∧ some sampleReg ≠ (none : Option DecoyRegistration) := by
  exact ⟨by decide, by decide⟩

/-- C3 amended: after any history of `register` calls on a fresh table,
`checkRegistration(addr)` returns the entity of the most recent
`register(addr, entity)` call whose entity was non-nil (nil-entity calls
are no-ops), independent of interleaved calls for other addresses; when no
such call exists it returns the not-found signal `none` (the fold's base). -/
theorem checkRegistration_most_recent (ops : List RegOp) (addr : String) :
    checkRegistration (applyOps NewRegisteredDecoys ops) addr
      = mostRecentNonNil ops addr := by
  rw [applyOps_check]
  rfl

/-- C4: the decision taken after the statistical timeout, as a function of
the result channel's FIFO contents at the deadline: an empty channel gives
`(false, timeout error)`; otherwise the single non-blocking receive takes
the first-reported outcome, giving `(true, nil)` if that attempt connected
and `(false, its error)` if it failed. -/
theorem phantomIsLive_decision :
    phantomIsLive [] = (false, some (ProbeErr.timeoutReached probeTimeoutMs))
    ∧ (∀ e rest, phantomIsLive (some e :: rest) = (false, some (ProbeErr.dial e)))
    ∧ (∀ rest, phantomIsLive (none :: rest) = (true, none)) :=
  ⟨rfl, fun _ _ => rfl, fun _ => rfl⟩

/-- C5: `IDString` returns "000000" when the shared secret has fewer than 3
bytes, when the `keys` pointer is nil, and when the receiver is nil;
otherwise it returns the first 6 hex characters of the encoded secret, and
on the scenario secret `0xdeadbeef` that is "deadbe". -/
theorem idString_spec :
    (∀ r k, r.keys = some k → k.SharedSecret.length < 3 →
        IDString (some r) = "000000")
    ∧ (∀ r, r.keys = none → IDString (some r) = "000000")
    ∧ IDString none = "000000"
    ∧ (∀ r k, r.keys = some k → 3 ≤ k.SharedSecret.length →
        IDString (some r) = String.mk ((hexEncode k.SharedSecret).take 6))
    ∧ IDString (some sampleReg) = "deadbe" := by
  refine ⟨?_, ?_, rfl, ?_, by decide⟩
  · intro r k hk hlen
    have h6 : (hexEncode k.SharedSecret).length < 6 := by
      rw [hexEncode_length]
      omega
    simp [IDString, hk, h6]
  · intro r hk
    simp [IDString, hk]
  · intro r k hk hlen
    have h6 : ¬ (hexEncode k.SharedSecret).length < 6 := by
      rw [hexEncode_length]
      omega
    simp [IDString, hk, h6]

/-- C5 witness: the short-secret case (2 bytes → "000000") and the normal
case (4 bytes → the first 6 hex chars) at concrete entities. -/
theorem idString_spec_witness :
    (shortReg.keys = some shortKeys ∧ shortKeys.SharedSecret.length < 3
      ∧ IDString (some shortReg) = "000000")
    ∧ (sampleReg.keys = some sampleKeys ∧ 3 ≤ sampleKeys.SharedSecret.length
      ∧ IDString (some sampleReg)
          = String.mk ((hexEncode sampleKeys.SharedSecret).take 6)) :=
  ⟨⟨rfl, by decide, idString_spec.1 shortReg shortKeys rfl (by decide)⟩,
   ⟨rfl, by decide, idString_spec.2.2.2.1 sampleReg sampleKeys rfl (by decide)⟩⟩

/-- C6: on a non-nil entity with a non-nil `keys` pointer, `String()`
returns `{phantom=<ip>, covert=<str>, mask=<str>, flags=0x<2 hex digits>,
Shared Secret:<hex>}` in exactly that field order, where the flags field is
exactly two lowercase hex digits and the secret is its full hex encoding. -/
theorem string_digest_format (r : DecoyRegistration) (k : ConjureSharedKeys)
    (h : r.keys = some k) (fuel : Nat) :
    ∃ fl : String,
      StringFuel (fuel + 1) (some r) =
        some ("\x7bphantom=" ++ r.DarkDecoy ++ ", covert=" ++ r.Covert ++ ", mask="
          ++ r.Mask ++ ", flags=0x" ++ fl ++ ", Shared Secret:"
          ++ String.mk (hexEncode k.SharedSecret) ++ "\x7d")
      ∧ fl.length = 2
      ∧ (∀ c ∈ fl.data, c ∈ hexChars) := by
  refine ⟨byteToHex2 r.Flags, ?_, rfl, ?_⟩
  · simp [StringFuel, h, digest]
  · intro c hc
    have hval : r.Flags.val < 256 := r.Flags.isLt
    have hdiv : r.Flags.val / 16 < 16 := by omega
    have hmod : r.Flags.val % 16 < 16 := by omega
    have hdata : (byteToHex2 r.Flags).data
        = [hexDigit (r.Flags.val / 16), hexDigit (r.Flags.val % 16)] := rfl
    rw [hdata] at hc
    simp only [List.mem_cons, List.not_mem_nil, or_false] at hc
    rcases hc with hc | hc <;> rw [hc]
    · exact hexDigit_mem_hexChars _ hdiv
    · exact hexDigit_mem_hexChars _ hmod

/-- C6 witness: the format theorem instantiated at the scenario entity. -/
theorem string_digest_format_witness :
    ∃ fl : String,
      StringFuel 1 (some sampleReg) =
        some ("\x7bphantom=" ++ sampleReg.DarkDecoy ++ ", covert=" ++ sampleReg.Covert
          ++ ", mask=" ++ sampleReg.Mask ++ ", flags=0x" ++ fl ++ ", Shared Secret:"
          ++ String.mk (hexEncode sampleKeys.SharedSecret) ++ "\x7d")
      ∧ fl.length = 2
      ∧ (∀ c ∈ fl.data, c ∈ hexChars) :=
  string_digest_format sampleReg sampleKeys rfl 0

/-- C7: `register` with a nil entity is a no-op: the returned table (both
the address map and the expiry queue) is the very state passed in. -/
theorem register_nil_entity_noop :
    ∀ (r : RegisteredDecoys) (addr : String) (now : Int),
      register r addr none now = r :=
  fun _ _ _ => rfl

/-- C8: the result channel is created with capacity `width`; each attempt
deposits exactly one outcome on every exit path; hence any `width` attempts
deposit at most `channelCapacity` items in total, so every attempt's
(buffered) send has room and never blocks, even if never consumed. -/
theorem probe_channel_capacity :
    channelCapacity = width
    ∧ (∀ o, (testConnect o).length = 1)
    ∧ (∀ outcomes : List (Option String), outcomes.length = width →
        (allDeposits outcomes).length ≤ channelCapacity) := by
  refine ⟨rfl, ?_, ?_⟩
  · intro o
    cases o <;> rfl
  · intro outcomes h
    rw [allDeposits_length, h]
    exact le_rfl

/-- C8 witness: eight concrete attempt outcomes (mixed successes and dial
errors) fit in the channel. -/
theorem probe_channel_capacity_witness :
    ([none, none, some "refused", none, some "refused", none, none, none]
        : List (Option String)).length = width
    ∧ (allDeposits [none, none, some "refused", none, some "refused",
        none, none, none]).length ≤ channelCapacity :=
  ⟨by decide,
   probe_channel_capacity.2.2
     [none, none, some "refused", none, some "refused", none, none, none] (by decide)⟩

/-- C9: expiry-queue invariants. `register` either leaves the queue alone
(nil entity) or appends one pair stamped `now`; if the queue was sorted by
registration time and `now` is no earlier than every stored time, the
result is still sorted. `removeOldRegistrations` always truncates the
queue to a suffix of itself. `checkRegistration` is a pure read of the map
and touches no state. -/
theorem expiry_queue_invariants :
    (∀ (r : RegisteredDecoys) (a : String) (d : Option DecoyRegistration) (now : Int),
        queueSorted r → (∀ e ∈ r.decoysTimeouts, e.registrationTime ≤ now) →
        queueSorted (register r a d now))
    ∧ (∀ (r : RegisteredDecoys) (a : String) (d : Option DecoyRegistration) (now : Int),
        (register r a d now).decoysTimeouts = r.decoysTimeouts
        ∨ (register r a d now).decoysTimeouts = r.decoysTimeouts ++ [⟨a, now⟩])
    ∧ (∀ (r : RegisteredDecoys) (now : Int),
        (removeOldRegistrations r now).decoysTimeouts <:+ r.decoysTimeouts)
    ∧ (∀ (r : RegisteredDecoys) (addr : String),
        checkRegistration r addr = r.decoys addr) :=
  ⟨register_sorted, register_queue_shape, removeOld_queue_suffix, fun _ _ => rfl⟩

/-- C9 witness: sortedness preservation applied to a concrete two-entry
history with increasing timestamps. -/
theorem expiry_queue_invariants_witness :
    queueSorted (register NewRegisteredDecoys "a" (some sampleReg) 3)
    ∧ (∀ e ∈ (register NewRegisteredDecoys "a" (some sampleReg) 3).decoysTimeouts,
        e.registrationTime ≤ 7)
    ∧ queueSorted (register (register NewRegisteredDecoys "a" (some sampleReg) 3)
        "b" (some sampleReg) 7) :=
  ⟨by simp [queueSorted, register, NewRegisteredDecoys], by decide,
   expiry_queue_invariants.1 (register NewRegisteredDecoys "a" (some sampleReg) 3)
     "b" (some sampleReg) 7
     (by simp [queueSorted, register, NewRegisteredDecoys]) (by decide)⟩

/-- C10: when the address-selection component fails to construct,
`NewRegistrationManager` returns a nil manager and surfaces no diagnostic:
the `fmt.Errorf` value is built and immediately discarded (never returned,
logged, or panicked on), so the caller sees only `nil`. -/
theorem newRegistrationManager_discards_error :
    ∀ err, NewRegistrationManager (SelectorInit.fail err) = (none, none) :=
  fun _ => rfl

end Conjure
